import Mathlib

/-!
Verification of the some-tracker preview synthesis core.

This file embeds, as executable Lean definitions, the parts of the
repository's preview-note engine that the development reasons about:

* the PT3 volume lookup table and the volume-combination step of
  `PreviewProcessor.updateChipRegisters` (worklet copy with the table);
* the linear `Math.round((baseVolume * instrumentVolume) / 15)` volume
  formula of the other `PreviewProcessor.updateChipRegisters` copy
  (`public/preview-processor.js`);
* the tick scheduling of `PreviewProcessor.process`;
* `PreviewProcessor.playNote` / `stopNote` / `advanceInstrument` /
  `updateChipRegisters` as a state-transition model whose observable
  output is the list of chip register writes;
* `PreviewNoteService.playNote` / `stopNote` (held-key set logic);
* `PatternInstrumentContext.getVolumeForPreview` /
  `getInstrumentForPreview` (backward-scan inheritance).

JavaScript `undefined`/`null` optionality is embedded as `Option`,
JavaScript numbers that the code uses as integers as `ℤ`/`ℕ`, and the
(floating-point) tuning-table frequencies symbolically, since no claim
depends on a frequency value.  String keyboard keys are embedded as an
abstract identifier type with decidable equality (`Key := ℕ`); only
equality of keys is ever used by the code.
-/

namespace SomeTracker

/-- The PT3 volume table, `PT3_VOL`, copied row by row from the worklet
source (the 16×16 constant at the top of the preview processor). -/
def PT3_VOL : List (List ℕ) := [
  [0x00, 0x00, 0x00, 0x00, 0x00, 0x00, 0x00, 0x00, 0x00, 0x00, 0x00, 0x00, 0x00, 0x00, 0x00, 0x00],
  [0x00, 0x00, 0x00, 0x00, 0x00, 0x00, 0x00, 0x00, 0x01, 0x01, 0x01, 0x01, 0x01, 0x01, 0x01, 0x01],
  [0x00, 0x00, 0x00, 0x00, 0x01, 0x01, 0x01, 0x01, 0x01, 0x01, 0x01, 0x01, 0x02, 0x02, 0x02, 0x02],
  [0x00, 0x00, 0x00, 0x01, 0x01, 0x01, 0x01, 0x01, 0x02, 0x02, 0x02, 0x02, 0x02, 0x03, 0x03, 0x03],
  [0x00, 0x00, 0x01, 0x01, 0x01, 0x01, 0x02, 0x02, 0x02, 0x02, 0x03, 0x03, 0x03, 0x03, 0x04, 0x04],
  [0x00, 0x00, 0x01, 0x01, 0x01, 0x02, 0x02, 0x02, 0x03, 0x03, 0x03, 0x04, 0x04, 0x04, 0x05, 0x05],
  [0x00, 0x00, 0x01, 0x01, 0x02, 0x02, 0x02, 0x03, 0x03, 0x04, 0x04, 0x04, 0x05, 0x05, 0x06, 0x06],
  [0x00, 0x00, 0x01, 0x01, 0x02, 0x02, 0x03, 0x03, 0x04, 0x04, 0x05, 0x05, 0x06, 0x06, 0x07, 0x07],
  [0x00, 0x01, 0x01, 0x02, 0x02, 0x03, 0x03, 0x04, 0x04, 0x05, 0x05, 0x06, 0x06, 0x07, 0x07, 0x08],
  [0x00, 0x01, 0x01, 0x02, 0x02, 0x03, 0x04, 0x04, 0x05, 0x05, 0x06, 0x07, 0x07, 0x08, 0x08, 0x09],
  [0x00, 0x01, 0x01, 0x02, 0x03, 0x03, 0x04, 0x05, 0x05, 0x06, 0x07, 0x07, 0x08, 0x09, 0x09, 0x0a],
  [0x00, 0x01, 0x01, 0x02, 0x03, 0x04, 0x04, 0x05, 0x06, 0x07, 0x07, 0x08, 0x09, 0x0a, 0x0a, 0x0b],
  [0x00, 0x01, 0x02, 0x02, 0x03, 0x04, 0x05, 0x06, 0x06, 0x07, 0x08, 0x09, 0x0a, 0x0a, 0x0b, 0x0c],
  [0x00, 0x01, 0x02, 0x03, 0x03, 0x04, 0x05, 0x06, 0x07, 0x08, 0x09, 0x0a, 0x0a, 0x0b, 0x0c, 0x0d],
  [0x00, 0x01, 0x02, 0x03, 0x04, 0x05, 0x06, 0x07, 0x07, 0x08, 0x09, 0x0a, 0x0b, 0x0c, 0x0d, 0x0e],
  [0x00, 0x01, 0x02, 0x03, 0x04, 0x05, 0x06, 0x07, 0x08, 0x09, 0x0a, 0x0b, 0x0c, 0x0d, 0x0e, 0x0f]]

/-- The double indexing `PT3_VOL[patternVol][instVol]` performed by
`updateChipRegisters` in the table-based worklet copy. -/
def pt3Vol (p i : ℕ) : ℕ := (PT3_VOL.getD p []).getD i 0

/-- JavaScript `Math.round` on a rational: round half toward plus
infinity, i.e. `⌊q + 1/2⌋`. -/
def jsRound (q : ℚ) : ℤ := ⌊q + 1 / 2⌋

/-- The volume formula of `updateChipRegisters` in
`public/preview-processor.js`:
`Math.round((baseVolume * instrumentVolume) / 15)`. -/
def volumeLinear (b iv : ℕ) : ℤ := jsRound ((b * iv : ℚ) / 15)

/-- The clamp applied by the table-based `updateChipRegisters` before
indexing: `Math.max(0, Math.min(15, v))`. -/
def clampVol (v : ℤ) : ℤ := max 0 (min 15 v)

/-- Instrument-volume resolution of the table-based
`updateChipRegisters`: the default 15 is replaced by the instrument
row's volume only when that field is present and nonnegative
(`instRow.volume !== undefined && instRow.volume !== null &&
instRow.volume >= 0`). -/
def resolveInstVolume (rowVolume : Option ℤ) : ℤ :=
  match rowVolume with
  | some v => if 0 ≤ v then v else 15
  | none => 15

/-- The combined volume computed by the table-based
`updateChipRegisters`: clamp both operands, then look up `PT3_VOL`. -/
def combinedVolume (baseVolume : ℤ) (rowVolume : Option ℤ) : ℕ :=
  pt3Vol (clampVol baseVolume).toNat (clampVol (resolveInstVolume rowVolume)).toNat

/-- One row of an instrument envelope: note offset, volume, mixer
flags and noise-add, each optional as in the JavaScript objects. -/
structure InstrumentRow where
  note : Option ℤ
  volume : Option ℤ
  tone : Option Bool
  noise : Option Bool
  envelope : Option Bool
  noiseAdd : Option ℤ

/-- An instrument: its envelope rows plus the optional loop row index
(`instrument.loop`, a number when present; the code also checks it is
nonnegative). -/
structure Instrument where
  rows : List InstrumentRow
  loop : Option ℤ

/-- Chip type tag (`this.chipType`), set from the init payload. -/
inductive ChipType where
  | ay
  | other
deriving DecidableEq

/-- The `currentNote` record stored by `PreviewProcessor.playNote`. -/
structure CurrentNote where
  noteName : ℕ
  octave : ℤ
  instrumentIndex : ℕ
  channelIndex : ℕ
  baseNote : ℤ
  instrument : Option Instrument
  baseVolume : ℤ

/-- A chip tone frequency as computed by `updateChipRegisters`: either a
tuning-table entry, or the equal-temperament fallback
`440 * 2^((finalNote - 57)/12)` kept symbolic (it is floating point and
no claim depends on its value). -/
inductive Freq where
  | table (q : ℚ)
  | equalTemperament (finalNote : ℤ)

/-- One register write issued to the WASM chip. -/
inductive RegWrite where
  | setVolume (ch : ℕ) (v : ℕ)
  | setMixer (ch : ℕ) (tone noise env : ℕ)
  | setTone (ch : ℕ) (f : Freq)
  | setNoise (v : ℕ)

/-- The preview worklet's state.  `inited` is the JavaScript
`this.initialized` flag and `wasmPresent` the presence of
`this.wasmModule`; `volumes` mirrors the chip's three per-channel
volume registers as updated by `ayumi_set_volume` calls. -/
structure ProcState where
  inited : Bool
  wasmPresent : Bool
  chip : Option ChipType
  currentNote : Option CurrentNote
  instruments : List Instrument
  tuningTable : List ℚ
  instrumentRow : ℕ
  tickCounter : ℕ
  samplesPerTick : ℕ
  volumes : Fin 3 → ℕ

/-- The worklet state right after the constructor runs. -/
def freshProc : ProcState where
  inited := false
  wasmPresent := false
  chip := none
  currentNote := none
  instruments := []
  tuningTable := []
  instrumentRow := 0
  tickCounter := 0
  samplesPerTick := 0
  volumes := fun _ => 0

/-- Mirror a register write into the volume register file (only
`ayumi_set_volume` touches it; channels outside 0..2 are out of the
chip's register range and tracked nowhere). -/
def applyWrite (vols : Fin 3 → ℕ) (w : RegWrite) : Fin 3 → ℕ :=
  match w with
  | RegWrite.setVolume ch v =>
      if h : ch < 3 then Function.update vols ⟨ch, h⟩ v else vols
  | _ => vols

/-- The two writes per muted channel issued by the loop
`for i in 0..2, i ≠ channelIndex` of `updateChipRegisters`. -/
def muteOtherWrites (ch : ℕ) : List RegWrite :=
  (List.range 3).foldr
    (fun i acc =>
      if i ≠ ch then RegWrite.setVolume i 0 :: RegWrite.setMixer i 1 1 0 :: acc
      else acc)
    []

/-- `PreviewProcessor.updateChipRegisters` (table-based worklet copy):
guard on `wasmModule`, `currentNote` and chip type, resolve the current
instrument row, combine volumes through `PT3_VOL`, resolve the tone
frequency, then issue the register writes.  Returns the updated state
and the write list. -/
def updateChipRegisters (st : ProcState) : ProcState × List RegWrite :=
  match st.wasmPresent, st.currentNote, st.chip with
  | true, some note, some ChipType.ay =>
      let rowOpt : Option InstrumentRow :=
        match note.instrument with
        | some inst => inst.rows.get? st.instrumentRow
        | none => none
      let noteOffset : ℤ :=
        match rowOpt with
        | some r => r.note.getD 0
        | none => 0
      let instrumentVolume : ℤ :=
        match rowOpt with
        | some r => resolveInstVolume r.volume
        | none => 15
      let toneEnabled : Bool :=
        match rowOpt with
        | some r => r.tone.getD true
        | none => true
      let noiseEnabled : Bool :=
        match rowOpt with
        | some r => r.noise.getD false
        | none => false
      let envelopeEnabled : Bool :=
        match rowOpt with
        | some r => r.envelope.getD false
        | none => false
      let noiseValue : ℕ :=
        match rowOpt with
        | some r =>
            match r.noiseAdd with
            | some v => (v.emod 32).toNat
            | none => 0
        | none => 0
      let volumeValue : ℕ :=
        pt3Vol (clampVol note.baseVolume).toNat (clampVol instrumentVolume).toNat
      let finalNote : ℤ := note.baseNote + noteOffset
      let freq : Freq :=
        if 0 ≤ finalNote ∧ finalNote.toNat < st.tuningTable.length
        then Freq.table (st.tuningTable.getD finalNote.toNat 0)
        else Freq.equalTemperament finalNote
      let ch := note.channelIndex
      let ws : List RegWrite :=
        muteOtherWrites ch ++
        [RegWrite.setTone ch freq] ++
        (if noiseEnabled then [RegWrite.setNoise noiseValue] else []) ++
        [RegWrite.setVolume ch volumeValue,
         RegWrite.setMixer ch (if toneEnabled then 0 else 1)
           (if noiseEnabled then 0 else 1) (if envelopeEnabled then 1 else 0)]
      ({ st with volumes := ws.foldl applyWrite st.volumes }, ws)
  | _, _, _ => (st, [])

/-- `PreviewProcessor.stopNote`: guarded on `currentNote` and
`wasmModule`; mutes all three channels and resets the note state. -/
def procStopNote (st : ProcState) : ProcState × List RegWrite :=
  match st.currentNote, st.wasmPresent with
  | some _, true =>
      let ws : List RegWrite :=
        [RegWrite.setVolume 0 0, RegWrite.setVolume 1 0, RegWrite.setVolume 2 0]
      ({ st with
          currentNote := none
          instrumentRow := 0
          tickCounter := 0
          volumes := ws.foldl applyWrite st.volumes }, ws)
  | _, _ => (st, [])

/-- The `play_note` message payload. -/
structure PlayPayload where
  noteName : ℕ
  octave : ℤ
  instrumentIndex : ℕ
  channelIndex : Option ℕ
  baseVolume : Option ℤ

/-- `PreviewProcessor.playNote`: guarded on `initialized` and
`wasmModule`; stops any current note, stores the new `currentNote`
(with `baseNote = noteName - 2 + (octave - 1) * 12`, the instrument
fetched from `this.instruments`, `channelIndex || 0` and the default
base volume 15), resets the cursor and tick counter, and applies
`updateChipRegisters`. -/
def procPlayNote (st : ProcState) (p : PlayPayload) : ProcState × List RegWrite :=
  if st.inited ∧ st.wasmPresent then
    let r1 :=
      match st.currentNote with
      | some _ => procStopNote st
      | none => (st, [])
    let st1 := r1.1
    let baseNote : ℤ := (p.noteName : ℤ) - 2 + (p.octave - 1) * 12
    let note : CurrentNote :=
      { noteName := p.noteName
        octave := p.octave
        instrumentIndex := p.instrumentIndex
        channelIndex := p.channelIndex.getD 0
        baseNote := baseNote
        instrument := st1.instruments.get? p.instrumentIndex
        baseVolume := p.baseVolume.getD 15 }
    let st2 := { st1 with currentNote := some note, instrumentRow := 0, tickCounter := 0 }
    let r2 := updateChipRegisters st2
    (r2.1, r1.2 ++ r2.2)
  else (st, [])

/-- The bare row-cursor update of `PreviewProcessor.advanceInstrument`:
increment, then on overflow jump to a present nonnegative loop index,
else clamp to the last row. -/
def advanceRow (inst : Instrument) (row : ℕ) : ℕ :=
  let r := row + 1
  if inst.rows.length ≤ r then
    match inst.loop with
    | some l => if 0 ≤ l then l.toNat else inst.rows.length - 1
    | none => inst.rows.length - 1
  else r

/-- `PreviewProcessor.advanceInstrument`: guarded on a current note
with an instrument; advances the row cursor and re-applies
`updateChipRegisters`. -/
def advanceInstrument (st : ProcState) : ProcState × List RegWrite :=
  match st.currentNote with
  | some note =>
      match note.instrument with
      | some inst =>
          updateChipRegisters { st with instrumentRow := advanceRow inst st.instrumentRow }
      | none => (st, [])
  | none => (st, [])

/-- The state-affecting part of `PreviewProcessor.process` for one
render block: guarded on `initialized`/`wasmModule`; with a note
playing, accumulate the block size into `tickCounter` and, when it
reaches `samplesPerTick`, decrement once and fire one
`advanceInstrument` tick.  The third component counts the fired ticks
(0 or 1).  Audio rendering only mutates chip-internal oscillator
state, which this model does not track. -/
def process (st : ProcState) (blockSize : ℕ) : ProcState × List RegWrite × ℕ :=
  if st.inited ∧ st.wasmPresent then
    match st.currentNote with
    | some _ =>
        let c := st.tickCounter + blockSize
        if st.samplesPerTick ≤ c then
          let r := advanceInstrument { st with tickCounter := c - st.samplesPerTick }
          (r.1, r.2, 1)
        else ({ st with tickCounter := c }, [], 0)
    | none => (st, [], 0)
  else (st, [], 0)

/-- One render block applied to an accumulated (state, ticks fired)
pair. -/
def runStep (acc : ProcState × ℕ) (b : ℕ) : ProcState × ℕ :=
  let r := process acc.1 b
  (r.1, acc.2 + r.2.2)

/-- Feed a sequence of render-block sizes to `process`, returning the
final state and the total number of fired ticks. -/
def runProcess (st : ProcState) (blocks : List ℕ) : ProcState × ℕ :=
  blocks.foldl runStep (st, 0)

/-- A keyboard-key identifier (`key: string` in the service); only
equality is ever used, so keys are embedded as naturals. -/
abbrev Key := ℕ

/-- The `currentNote` record of `PreviewNoteService`. -/
structure SvcNote where
  noteName : ℕ
  octave : ℤ
  instrumentIndex : ℕ
  channelIndex : ℕ
  key : Key
deriving DecidableEq

/-- A message the service posts to its worklet port (`play_note` with
its payload, or `stop_note`). -/
inductive ServiceMsg where
  | play (noteName : ℕ) (octave : ℤ) (instrumentIndex channelIndex : ℕ) (baseVolume : ℤ)
  | stop
deriving DecidableEq

/-- The `PreviewNoteService` state relevant to note commands:
`audioNodePresent` is the presence of `this.audioNode`, `ready` the
ready flag, plus `currentNote` and the held-key set.  The JavaScript
`Set` is embedded as a duplicate-free list in insertion order. -/
structure ServiceState where
  audioNodePresent : Bool
  ready : Bool
  currentNote : Option SvcNote
  heldKeys : List Key

/-- `Set.prototype.add`: append the key unless already present. -/
def addKey (l : List Key) (k : Key) : List Key :=
  if k ∈ l then l else l ++ [k]

/-- The same-pitch check of `PreviewNoteService.playNote` (compares
`noteName`, `octave`, `instrumentIndex` and `channelIndex` of the
current note). -/
def sameNote (cur : Option SvcNote) (noteName : ℕ) (octave : ℤ)
    (instrumentIndex channelIndex : ℕ) : Bool :=
  match cur with
  | some n =>
      n.noteName = noteName ∧ n.octave = octave ∧
        n.instrumentIndex = instrumentIndex ∧ n.channelIndex = channelIndex
  | none => false

/-- `PreviewNoteService.playNote`: guarded on the audio node and the
ready flag; records the held key, is a no-op for a re-trigger of the
same pitch, otherwise stores the note and posts one `play_note`
command.  (Resuming a suspended `AudioContext` is an external effect
with no bearing on this state.) -/
def svcPlayNote (s : ServiceState) (noteName : ℕ) (octave : ℤ)
    (instrumentIndex channelIndex : ℕ) (key : Key) (baseVolume : ℤ) :
    ServiceState × List ServiceMsg :=
  if s.audioNodePresent ∧ s.ready then
    let s1 := { s with heldKeys := addKey s.heldKeys key }
    if sameNote s1.currentNote noteName octave instrumentIndex channelIndex then
      (s1, [])
    else
      ({ s1 with currentNote := some ⟨noteName, octave, instrumentIndex, channelIndex, key⟩ },
        [ServiceMsg.play noteName octave instrumentIndex channelIndex baseVolume])
  else (s, [])

/-- `PreviewNoteService.stopNote`: guarded on the audio node and the
ready flag; deletes the key (when one is given) from the held set, and
posts `stop_note`, clears the note and the set only when the set became
empty or no key was given. -/
def svcStopNote (s : ServiceState) (key : Option Key) :
    ServiceState × List ServiceMsg :=
  if s.audioNodePresent ∧ s.ready then
    let held :=
      match key with
      | some k => s.heldKeys.erase k
      | none => s.heldKeys
    if held.length = 0 ∨ key = none then
      ({ s with currentNote := none, heldKeys := [] }, [ServiceMsg.stop])
    else ({ s with heldKeys := held }, [])
  else (s, [])

/-- A message arriving at the worklet's port
(`PreviewProcessor.handleMessage`).  The init payload carries the chip
type and the sample rate; whether WASM instantiation succeeds is an
environment input. -/
inductive WorkletMsg where
  | init (chipType : ChipType) (wasmOk : Bool) (sampleRate : ℕ)
  | playMsg (p : PlayPayload)
  | stopMsg
  | updInstruments (l : Option (List Instrument))
  | updTuningTable (l : Option (List ℚ))

/-- `PreviewProcessor.initialize`: always records the chip type; for an
`ay` chip with successful WASM instantiation it configures the chip,
computes `samplesPerTick = Math.floor(sampleRate / 50)` and sets the
`initialized` flag; otherwise (unsupported chip or failed
instantiation) only an error is logged. -/
def workletInitMsg (st : ProcState) (chipType : ChipType) (wasmOk : Bool)
    (sampleRate : ℕ) : ProcState :=
  let st1 := { st with chip := some chipType }
  if chipType = ChipType.ay ∧ wasmOk then
    { st1 with
        wasmPresent := true
        samplesPerTick := sampleRate / 50
        inited := true }
  else st1

/-- `PreviewProcessor.handleMessage`, restricted to its effect on the
worklet state. -/
def handleMessage (st : ProcState) (m : WorkletMsg) : ProcState :=
  match m with
  | WorkletMsg.init chipType wasmOk sampleRate => workletInitMsg st chipType wasmOk sampleRate
  | WorkletMsg.playMsg p => (procPlayNote st p).1
  | WorkletMsg.stopMsg => (procStopNote st).1
  | WorkletMsg.updInstruments l => { st with instruments := l.getD [] }
  | WorkletMsg.updTuningTable l => { st with tuningTable := l.getD [] }

/-- Run a list of port messages from a given worklet state. -/
def runMessages (st : ProcState) (ms : List WorkletMsg) : ProcState :=
  ms.foldl handleMessage st

/-- One row entry of a pattern channel, with the fields
`PatternInstrumentContext` reads (both optional). -/
structure RowEntry where
  instrument : Option ℤ
  volume : Option ℤ
deriving DecidableEq

/-- One channel of a pattern: its list of row entries. -/
structure PatternChannel where
  rows : List RowEntry
deriving DecidableEq

/-- A pattern, as read by `PatternInstrumentContext`: its channels.
Modelled from the spec: the `Pattern` model type itself lives outside
the given sources; §3 of the spec describes it as an ordered sequence
of rows with one entry per channel, which the context service accesses
as `pattern.channels[channelIndex].rows[rowIndex]`. -/
structure Pattern where
  channels : List PatternChannel
deriving DecidableEq

/-- The backward loop of `getVolumeForPreview`
(`for i = rowIndex - 1; i >= 0; i--`): `lookBackVolume ch n` scans
indices `n-1, …, 0` for the first row whose volume is present,
non-null and positive. -/
def lookBackVolume (ch : PatternChannel) : ℕ → Option ℤ
  | 0 => none
  | i + 1 =>
      match ch.rows.get? i with
      | some r =>
          match r.volume with
          | some v => if 0 < v then some v else lookBackVolume ch i
          | none => lookBackVolume ch i
      | none => lookBackVolume ch i

/-- The backward loop of `getInstrumentForPreview`. -/
def lookBackInstrument (ch : PatternChannel) : ℕ → Option ℤ
  | 0 => none
  | i + 1 =>
      match ch.rows.get? i with
      | some r =>
          match r.instrument with
          | some v => if 0 < v then some v else lookBackInstrument ch i
          | none => lookBackInstrument ch i
      | none => lookBackInstrument ch i

/-- `PatternInstrumentContext.getVolumeForPreview`: default 15 for an
invalid channel; else use the current row's volume when present and
positive, else scan backward, else 15. -/
def getVolumeForPreview (pattern : Pattern) (rowIndex : ℕ) (channelIndex : ℤ) : ℤ :=
  if channelIndex < 0 ∨ (pattern.channels.length : ℤ) ≤ channelIndex then 15
  else
    let ch := pattern.channels.getD channelIndex.toNat ⟨[]⟩
    let back := (lookBackVolume ch rowIndex).getD 15
    match ch.rows.get? rowIndex with
    | some r =>
        match r.volume with
        | some v => if 0 < v then v else back
        | none => back
    | none => back

/-- `PatternInstrumentContext.getInstrumentForPreview`: default 0 for an
invalid channel; else use the current row's instrument when present and
positive, else scan backward, else 0. -/
def getInstrumentForPreview (pattern : Pattern) (rowIndex : ℕ) (channelIndex : ℤ) : ℤ :=
  if channelIndex < 0 ∨ (pattern.channels.length : ℤ) ≤ channelIndex then 0
  else
    let ch := pattern.channels.getD channelIndex.toNat ⟨[]⟩
    let back := (lookBackInstrument ch rowIndex).getD 0
    match ch.rows.get? rowIndex with
    | some r =>
        match r.instrument with
        | some v => if 0 < v then v else back
        | none => back
    | none => back

/-- The claim's reading of volume inheritance: the volume of the
nearest row at or before `rowIndex` whose volume field is present —
including a present value of 0. -/
def nearestPresentVolume (ch : PatternChannel) (rowIndex : ℕ) : Option ℤ :=
  (List.range (rowIndex + 1)).reverse.findSome?
    (fun j => (ch.rows.get? j).bind (fun r => r.volume))

/-- The claim's reading of instrument inheritance: nearest present
instrument field at or before `rowIndex`, including a present 0. -/
def nearestPresentInstrument (ch : PatternChannel) (rowIndex : ℕ) : Option ℤ :=
  (List.range (rowIndex + 1)).reverse.findSome?
    (fun j => (ch.rows.get? j).bind (fun r => r.instrument))

/-- What the code actually inherits: the volume of the nearest row at
or before `rowIndex` whose volume field is present AND positive. -/
def nearestPositiveVolume (ch : PatternChannel) (rowIndex : ℕ) : Option ℤ :=
  (List.range (rowIndex + 1)).reverse.findSome?
    (fun j => (ch.rows.get? j).bind
      (fun r => r.volume.bind (fun v => if 0 < v then some v else none)))

/-- Nearest present-and-positive instrument at or before `rowIndex`. -/
def nearestPositiveInstrument (ch : PatternChannel) (rowIndex : ℕ) : Option ℤ :=
  (List.range (rowIndex + 1)).reverse.findSome?
    (fun j => (ch.rows.get? j).bind
      (fun r => r.instrument.bind (fun v => if 0 < v then some v else none)))

/-- A concrete playing note used by counterexample states. -/
def cexNote : CurrentNote where
  noteName := 2
  octave := 4
  instrumentIndex := 0
  channelIndex := 0
  baseNote := 36
  instrument := none
  baseVolume := 15

/-- A concrete running worklet state with a playing note and
`samplesPerTick = 100` (tick counter 0). -/
def cexTickSt : ProcState where
  inited := true
  wasmPresent := true
  chip := some ChipType.ay
  currentNote := some cexNote
  instruments := []
  tuningTable := []
  instrumentRow := 0
  tickCounter := 0
  samplesPerTick := 100
  volumes := fun _ => 0

/-- A concrete running worklet state whose three volume registers all
hold 5, with the note playing on channel 0. -/
def cexStopSt : ProcState where
  inited := true
  wasmPresent := true
  chip := some ChipType.ay
  currentNote := some cexNote
  instruments := []
  tuningTable := []
  instrumentRow := 0
  tickCounter := 0
  samplesPerTick := 100
  volumes := fun _ => 5

/-- A one-channel, one-row pattern whose single row has volume and
instrument both present with value 0. -/
def cexPattern : Pattern where
  channels := [⟨[⟨some 0, some 0⟩]⟩]

/-- A concrete service state whose audio node is absent and whose ready
flag is unset. -/
def cexSvcSt : ServiceState := ⟨false, false, none, []⟩

/-- A concrete `play_note` payload. -/
def cexPayload : PlayPayload := ⟨2, 4, 0, none, none⟩

/- ### Theorems ### -/

/-- `updateChipRegisters` only writes chip registers: every other state
field is untouched. -/
lemma updateChipRegisters_preserve (st : ProcState) :
    (updateChipRegisters st).1.inited = st.inited ∧
    (updateChipRegisters st).1.wasmPresent = st.wasmPresent ∧
    (updateChipRegisters st).1.currentNote = st.currentNote ∧
    (updateChipRegisters st).1.samplesPerTick = st.samplesPerTick ∧
    (updateChipRegisters st).1.tickCounter = st.tickCounter ∧
    (updateChipRegisters st).1.instrumentRow = st.instrumentRow := by
  unfold updateChipRegisters
  split <;> simp_all

/-- `procStopNote` never changes the flags or the tick length. -/
lemma procStopNote_preserve (st : ProcState) :
    (procStopNote st).1.inited = st.inited ∧
    (procStopNote st).1.wasmPresent = st.wasmPresent ∧
    (procStopNote st).1.samplesPerTick = st.samplesPerTick := by
  unfold procStopNote
  split <;> simp_all

/-- `procPlayNote` never changes the flags or the tick length. -/
lemma procPlayNote_preserve (st : ProcState) (p : PlayPayload) :
    (procPlayNote st p).1.inited = st.inited ∧
    (procPlayNote st p).1.wasmPresent = st.wasmPresent ∧
    (procPlayNote st p).1.samplesPerTick = st.samplesPerTick := by
  unfold procPlayNote
  split
  · obtain ⟨h1, h2, h3⟩ := procStopNote_preserve st
    obtain ⟨g1, g2, g3, g4, g5, g6⟩ := updateChipRegisters_preserve
      { (match st.currentNote with
          | some _ => procStopNote st
          | none => (st, [])).1 with
        currentNote := some
          { noteName := p.noteName
            octave := p.octave
            instrumentIndex := p.instrumentIndex
            channelIndex := p.channelIndex.getD 0
            baseNote := (p.noteName : ℤ) - 2 + (p.octave - 1) * 12
            instrument := (match st.currentNote with
              | some _ => procStopNote st
              | none => (st, [])).1.instruments.get? p.instrumentIndex
            baseVolume := p.baseVolume.getD 15 }
        instrumentRow := 0
        tickCounter := 0 }
    cases hc : st.currentNote <;> simp_all
  · simp

/-- `advanceInstrument` changes neither the note, the flags, the tick
counter nor the tick length. -/
lemma advanceInstrument_preserve (st : ProcState) :
    (advanceInstrument st).1.inited = st.inited ∧
    (advanceInstrument st).1.wasmPresent = st.wasmPresent ∧
    (advanceInstrument st).1.currentNote = st.currentNote ∧
    (advanceInstrument st).1.samplesPerTick = st.samplesPerTick ∧
    (advanceInstrument st).1.tickCounter = st.tickCounter := by
  unfold advanceInstrument
  split
  case _ note heq =>
    split
    case _ inst heq2 =>
      obtain ⟨g1, g2, g3, g4, g5, g6⟩ := updateChipRegisters_preserve
        { st with instrumentRow := advanceRow inst st.instrumentRow }
      simp_all
    case _ => simp
  case _ => simp

/-- C5 (amended): whenever a note is playing and the WASM module is
present, `stopNote` writes volume 0 to every one of the three channels
— the current note's channel included — and clears the current note. -/
theorem stopNote_mutes_every_channel (st : ProcState) (n : CurrentNote) (c : Fin 3)
    (h1 : st.currentNote = some n) (h2 : st.wasmPresent = true) :
    (procStopNote st).1.volumes c = 0 ∧ (procStopNote st).1.currentNote = none := by
  simp only [procStopNote, h1, h2]
  refine ⟨?_, trivial⟩
  fin_cases c <;> simp [applyWrite, Function.update]

/-- Witness for C5 (amended): the claim applied to a concrete playing
state, at channel 1. -/
theorem stopNote_mutes_every_channel_witness :
    (procStopNote cexStopSt).1.volumes 1 = 0 ∧
      (procStopNote cexStopSt).1.currentNote = none :=
  stopNote_mutes_every_channel cexStopSt cexNote 1 rfl rfl

/-- Counterexample for C5 as stated: it is false that `stopNote` leaves
the volume registers of channels other than the playing channel
unchanged — on a state whose three volume registers hold 5 with the
note on channel 0, `stopNote` zeroes channel 1 as well. -/
theorem stopNote_claim_counterexample :
    ¬ ∀ (st : ProcState) (n : CurrentNote) (c : Fin 3),
        st.currentNote = some n → st.wasmPresent = true → (c : ℕ) = n.channelIndex →
        ((procStopNote st).1.volumes c = 0 ∧
          ∀ c' : Fin 3, c' ≠ c → (procStopNote st).1.volumes c' = st.volumes c') := by
  intro h
  have h5 := (h cexStopSt cexNote 0 rfl rfl rfl).2 1 (by decide)
  exact absurd h5 (by decide)

/-- C6: for an instrument with three rows and loop index 1, five
successive `advanceInstrument` calls starting with the cursor at 0
visit the cursor values 1, 2, 1, 2, 1, i.e. the visited sequence
including the start is `[0, 1, 2, 1, 2, 1]`. -/
theorem advanceInstrument_loop_sequence (r0 r1 r2 : InstrumentRow) :
    let inst : Instrument := ⟨[r0, r1, r2], some 1⟩
    let st : ProcState :=
      { cexTickSt with currentNote := some { cexNote with instrument := some inst } }
    let s1 := (advanceInstrument st).1
    let s2 := (advanceInstrument s1).1
    let s3 := (advanceInstrument s2).1
    let s4 := (advanceInstrument s3).1
    let s5 := (advanceInstrument s4).1
    [st.instrumentRow, s1.instrumentRow, s2.instrumentRow, s3.instrumentRow,
      s4.instrumentRow, s5.instrumentRow] = [0, 1, 2, 1, 2, 1] := by
  rfl

/-- C7: for an instrument with two rows and no loop, four successive
`advanceInstrument` calls starting with the cursor at 0 yield the
cursor sequence `[0, 1, 1, 1, 1]`: the cursor reaches the last row on
the first advance and holds there. -/
theorem advanceInstrument_hold_sequence (r0 r1 : InstrumentRow) :
    let inst : Instrument := ⟨[r0, r1], none⟩
    let st : ProcState :=
      { cexTickSt with currentNote := some { cexNote with instrument := some inst } }
    let s1 := (advanceInstrument st).1
    let s2 := (advanceInstrument s1).1
    let s3 := (advanceInstrument s2).1
    let s4 := (advanceInstrument s3).1
    [st.instrumentRow, s1.instrumentRow, s2.instrumentRow, s3.instrumentRow,
      s4.instrumentRow] = [0, 1, 1, 1, 1] := by
  rfl

/-- Every entry of the PT3 table is at most 15, for indices in range. -/
lemma pt3Vol_le_15_of_lt (p i : ℕ) (hp : p < 16) (hi : i < 16) :
    pt3Vol p i ≤ 15 := by
  have h : ∀ p' i' : Fin 16, pt3Vol p' i' ≤ 15 := by decide
  exact h ⟨p, hp⟩ ⟨i, hi⟩

/-- C2: on `[0,15] × [0,15]` the combined-volume lookup used by the
preview register update is a deterministic function of the pair (equal
pairs give equal values), its value at `(15,15)` is `15`, and its value
at `(0,x)` and `(x,0)` is `0` for every `x` in `[0,15]`. -/
theorem pt3_table_properties :
    (∀ p i p' i' : Fin 16, p = p' → i = i' →
        pt3Vol (p : ℕ) (i : ℕ) = pt3Vol (p' : ℕ) (i' : ℕ)) ∧
    pt3Vol 15 15 = 15 ∧
    (∀ x : Fin 16, pt3Vol 0 (x : ℕ) = 0 ∧ pt3Vol (x : ℕ) 0 = 0) := by
  refine ⟨?_, by decide, by decide⟩
  intro p i p' i' hp hi
  rw [hp, hi]

/-- Witness for C2: the determinism conjunct applied at the concrete
pair `(3, 5)`. -/
theorem pt3_table_properties_witness :
    pt3Vol ((3 : Fin 16) : ℕ) ((5 : Fin 16) : ℕ) =
      pt3Vol ((3 : Fin 16) : ℕ) ((5 : Fin 16) : ℕ) :=
  pt3_table_properties.1 3 5 3 5 rfl rfl

/-- For natural `a`, `Math.round(a / 15)` equals the integer division
`(2a + 15) / 30`. -/
lemma jsRound_div15 (b iv : ℕ) :
    volumeLinear b iv = (2 * (b : ℤ) * (iv : ℤ) + 15) / ((30 : ℕ) : ℤ) := by
  have h : ((b : ℚ) * (iv : ℚ)) / 15 + 1 / 2 =
      ((2 * (b : ℤ) * (iv : ℤ) + 15 : ℤ) : ℚ) / ((30 : ℕ) : ℚ) := by
    push_cast
    ring
  simp only [volumeLinear, jsRound]
  rw [h, Rat.floor_intCast_div_natCast]

/-- C3: on `[0,15] × [0,15]` the lookup-table preview implementation and
the linear-normalize preview implementation compute the same combined
volume: `PT3_VOL[p][i] = Math.round(p * i / 15)`. -/
theorem pt3_matches_linear :
    ∀ p i : Fin 16, (pt3Vol (p : ℕ) (i : ℕ) : ℤ) = volumeLinear (p : ℕ) (i : ℕ) := by
  have key : ∀ p i : Fin 16,
      (pt3Vol (p : ℕ) (i : ℕ) : ℤ) =
        (2 * ((p : ℕ) : ℤ) * ((i : ℕ) : ℤ) + 15) / ((30 : ℕ) : ℤ) := by decide
  intro p i
  rw [jsRound_div15]
  exact key p i

/-- C10: for every integer base volume and every instrument-row volume
field (absent, negative, or arbitrarily large), the table-based
register update clamps both operands into `[0,15]`, so both table
indices are in bounds and the combined volume is in `[0,15]`. -/
theorem combinedVolume_in_range (baseVolume : ℤ) (rowVolume : Option ℤ) :
    (clampVol baseVolume).toNat < PT3_VOL.length ∧
    (clampVol (resolveInstVolume rowVolume)).toNat <
      (PT3_VOL.getD (clampVol baseVolume).toNat []).length ∧
    combinedVolume baseVolume rowVolume ≤ 15 := by
  have hclamp : ∀ v : ℤ, (clampVol v).toNat < 16 := by
    intro v
    have h1 : clampVol v ≤ 15 := by
      simp only [clampVol]
      exact max_le (by norm_num) (min_le_left _ _)
    omega
  have hp := hclamp baseVolume
  have hi := hclamp (resolveInstVolume rowVolume)
  have hlen : PT3_VOL.length = 16 := by decide
  have hrow : ∀ p : ℕ, p < 16 → (PT3_VOL.getD p []).length = 16 := by decide
  refine ⟨by omega, ?_, ?_⟩
  · rw [hrow _ (by omega)]; omega
  · exact pt3Vol_le_15_of_lt _ _ hp hi


/-- Invariant of the render loop: starting below the tick length with
a playing note and blocks no larger than the tick length, the counter
stays below the tick length and counter + tickLength * ticksFired
accounts for every accumulated sample. -/
lemma runStep_foldl_invariant (spt : ℕ) :
    ∀ (blocks : List ℕ) (st : ProcState) (t0 : ℕ),
      st.inited = true → st.wasmPresent = true → st.currentNote.isSome = true →
      st.samplesPerTick = spt → st.tickCounter < spt →
      (∀ b ∈ blocks, b ≤ spt) →
      (blocks.foldl runStep (st, t0)).1.tickCounter < spt ∧
        (blocks.foldl runStep (st, t0)).1.tickCounter +
          spt * (blocks.foldl runStep (st, t0)).2 =
          st.tickCounter + spt * t0 + blocks.sum := by
  intro blocks
  induction blocks with
  | nil =>
      intro st t0 h1 h2 h3 h4 h5 hb
      exact ⟨by simpa using h5, by simp⟩
  | cons b bs ih =>
      intro st t0 h1 h2 h3 h4 h5 hb
      obtain ⟨n, hn⟩ := Option.isSome_iff_exists.mp h3
      have hble : b ≤ spt := hb b (List.mem_cons_self b bs)
      have hbs : ∀ x ∈ bs, x ≤ spt := fun x hx => hb x (List.mem_cons_of_mem b hx)
      rw [List.foldl_cons]
      by_cases hfire : spt ≤ st.tickCounter + b
      · have hfire' : st.samplesPerTick ≤ st.tickCounter + b := by omega
        have hstep : runStep (st, t0) b =
            ((advanceInstrument
                { st with tickCounter := st.tickCounter + b - st.samplesPerTick }).1,
              t0 + 1) := by
          simp [runStep, process, h1, h2, hn, hfire']
        rw [hstep]
        obtain ⟨g1, g2, g3, g4, g5⟩ := advanceInstrument_preserve
          { st with tickCounter := st.tickCounter + b - st.samplesPerTick }
        have hres := ih
          (advanceInstrument
            { st with tickCounter := st.tickCounter + b - st.samplesPerTick }).1 (t0 + 1)
          (by rw [g1]; exact h1) (by rw [g2]; exact h2)
          (by rw [g3]; exact h3) (by rw [g4]; exact h4)
          (by rw [g5]; show st.tickCounter + b - st.samplesPerTick < spt; omega) hbs
        obtain ⟨hlt, heq⟩ := hres
        refine ⟨hlt, ?_⟩
        rw [heq, g5]
        have hrec : ({ st with tickCounter := st.tickCounter + b - st.samplesPerTick } :
            ProcState).tickCounter = st.tickCounter + b - st.samplesPerTick := rfl
        have hmul : spt * (t0 + 1) = spt * t0 + spt := by ring
        rw [hrec, hmul, List.sum_cons]
        omega
      · have hfire' : ¬ st.samplesPerTick ≤ st.tickCounter + b := by omega
        have hstep : runStep (st, t0) b =
            ({ st with tickCounter := st.tickCounter + b }, t0) := by
          simp [runStep, process, h1, h2, hn, hfire']
        rw [hstep]
        have hres := ih { st with tickCounter := st.tickCounter + b } t0
          h1 h2 h3 h4 (by show st.tickCounter + b < spt; omega) hbs
        obtain ⟨hlt, heq⟩ := hres
        refine ⟨hlt, ?_⟩
        rw [heq]
        have hrec : ({ st with tickCounter := st.tickCounter + b } :
            ProcState).tickCounter = st.tickCounter + b := rfl
        rw [hrec, List.sum_cons]
        omega

/-- C1 (amended): with a playing note, a zero tick counter, a positive
tick length, and every render block at most one tick length long,
feeding the blocks to `process` fires exactly
`floor(totalSamples / samplesPerTick)` instrument-advance ticks.  (A
single block longer than one tick length fires only one tick for that
block: see the counterexample to the unrestricted claim.) -/
theorem process_ticks_exact (st : ProcState) (blocks : List ℕ)
    (h1 : st.inited = true) (h2 : st.wasmPresent = true)
    (h3 : st.currentNote.isSome = true) (h4 : st.tickCounter = 0)
    (h5 : 0 < st.samplesPerTick)
    (hb : ∀ b ∈ blocks, b ≤ st.samplesPerTick) :
    (runProcess st blocks).2 = blocks.sum / st.samplesPerTick := by
  obtain ⟨hlt, heq⟩ := runStep_foldl_invariant st.samplesPerTick blocks st 0
    h1 h2 h3 rfl (by omega) hb
  have hsum : blocks.sum =
      (runProcess st blocks).1.tickCounter +
        st.samplesPerTick * (runProcess st blocks).2 := by
    simp only [runProcess]
    omega
  rw [hsum, Nat.add_mul_div_left _ _ h5,
    Nat.div_eq_of_lt (by simpa [runProcess] using hlt), zero_add]

/-- Witness for C1 (amended): three blocks of 70, 80 and 90 samples at
100 samples per tick fire 2 = floor(240/100) ticks. -/
theorem process_ticks_exact_witness :
    0 < cexTickSt.samplesPerTick ∧
      (runProcess cexTickSt [70, 80, 90]).2 =
        [70, 80, 90].sum / cexTickSt.samplesPerTick :=
  ⟨by decide, process_ticks_exact cexTickSt [70, 80, 90] rfl rfl rfl rfl
    (by decide) (by decide)⟩

/-- Counterexample for C1 as stated: ticks are dropped when a block is
larger than one tick length, because `process` uses a single
decrement-and-fire `if`, not a loop.  One block of 300 samples at 100
samples per tick fires 1 tick, not floor(300/100) = 3. -/
theorem process_ticks_claim_counterexample :
    ¬ ∀ (st : ProcState) (blocks : List ℕ),
        st.inited = true → st.wasmPresent = true →
        st.currentNote.isSome = true → st.tickCounter = 0 →
        0 < st.samplesPerTick →
        (runProcess st blocks).2 = blocks.sum / st.samplesPerTick := by
  intro h
  have h300 := h cexTickSt [300] rfl rfl rfl rfl (by decide)
  exact absurd h300 (by decide)

/-- C4: from an empty held-key set, playing a note with key 0 ("A"),
re-triggering the same pitch with key 1 ("S"), then releasing key 0
does not silence the voice (no message, current note kept), while
releasing key 1 afterwards does (one stop message, note cleared); the
second `playNote` posts no play command and keeps the current note. -/
theorem preview_key_set_behaviour (noteName : ℕ) (octave : ℤ)
    (instrumentIndex channelIndex : ℕ) :
    let s0 : ServiceState := ⟨true, true, none, []⟩
    let r1 := svcPlayNote s0 noteName octave instrumentIndex channelIndex 0 15
    let r2 := svcPlayNote r1.1 noteName octave instrumentIndex channelIndex 1 15
    let r3 := svcStopNote r2.1 (some 0)
    let r4 := svcStopNote r3.1 (some 1)
    (r2.2 = [] ∧ r2.1.currentNote = r1.1.currentNote ∧ r1.1.currentNote ≠ none) ∧
    (r3.2 = [] ∧ r3.1.currentNote = r1.1.currentNote) ∧
    (r4.2 = [ServiceMsg.stop] ∧ r4.1.currentNote = none) := by
  simp [svcPlayNote, svcStopNote, addKey, sameNote, List.erase]

/-- A worklet message preserves the invariant that an uninitialized
worklet has no current note and no WASM module. -/
lemma handleMessage_uninit_inv (st : ProcState) (m : WorkletMsg)
    (h : st.inited = false → st.currentNote = none ∧ st.wasmPresent = false) :
    (handleMessage st m).inited = false →
      (handleMessage st m).currentNote = none ∧
        (handleMessage st m).wasmPresent = false := by
  cases m with
  | init ct ok sr =>
      simp only [handleMessage, workletInitMsg]
      split
      · intro hin
        simp at hin
      · intro hin
        exact h hin
  | playMsg p =>
      intro hin
      simp only [handleMessage] at hin ⊢
      obtain ⟨p1, p2, p3⟩ := procPlayNote_preserve st p
      rw [p1] at hin
      obtain ⟨hc, hw⟩ := h hin
      simp [procPlayNote, hin, hc, hw]
  | stopMsg =>
      intro hin
      simp only [handleMessage] at hin ⊢
      obtain ⟨q1, q2, q3⟩ := procStopNote_preserve st
      rw [q1] at hin
      obtain ⟨hc, hw⟩ := h hin
      simp [procStopNote, hc, hw]
  | updInstruments l =>
      intro hin
      exact h hin
  | updTuningTable l =>
      intro hin
      exact h hin

/-- In every worklet state reachable by port messages, an unset
`initialized` flag implies no current note and no WASM module. -/
lemma runMessages_uninit_inv : ∀ (ms : List WorkletMsg) (st : ProcState),
    (st.inited = false → st.currentNote = none ∧ st.wasmPresent = false) →
    ((runMessages st ms).inited = false →
      (runMessages st ms).currentNote = none ∧
        (runMessages st ms).wasmPresent = false) := by
  intro ms
  induction ms with
  | nil =>
      intro st h
      simpa [runMessages] using h
  | cons m rest ih =>
      intro st h
      simp only [runMessages, List.foldl_cons] at *
      exact ih (handleMessage st m) (handleMessage_uninit_inv st m h)

/-- C9: preview commands issued before initialization completes are
no-ops.  On the service side, `playNote` and `stopNote` with an absent
audio node or an unset ready flag return with the state unchanged and
post no message; on the worklet side, `playNote` with the
`initialized` flag unset, and `stopNote` in any reachable state with
that flag unset, leave the state unchanged and issue no register
write.  Each call returns normally (no crash). -/
theorem uninit_commands_noop :
    (∀ (s : ServiceState) (noteName : ℕ) (octave : ℤ)
        (instrumentIndex channelIndex : ℕ) (key : Key) (baseVolume : ℤ),
        s.audioNodePresent = false ∨ s.ready = false →
        svcPlayNote s noteName octave instrumentIndex channelIndex key baseVolume
          = (s, [])) ∧
    (∀ (s : ServiceState) (key : Option Key),
        s.audioNodePresent = false ∨ s.ready = false →
        svcStopNote s key = (s, [])) ∧
    (∀ (st : ProcState) (p : PlayPayload), st.inited = false →
        procPlayNote st p = (st, [])) ∧
    (∀ ms : List WorkletMsg, (runMessages freshProc ms).inited = false →
        procStopNote (runMessages freshProc ms) = (runMessages freshProc ms, [])) := by
  refine ⟨?_, ?_, ?_, ?_⟩
  · intro s nn oc ii ci k bv h
    rcases h with h | h <;> simp [svcPlayNote, h]
  · intro s k h
    rcases h with h | h <;> simp [svcStopNote, h]
  · intro st p h
    simp [procPlayNote, h]
  · intro ms h
    obtain ⟨hc, hw⟩ := runMessages_uninit_inv ms freshProc (fun _ => ⟨rfl, rfl⟩) h
    simp [procStopNote, hc]

/-- Witness for C9: the four no-ops at concrete uninitialized states. -/
theorem uninit_commands_noop_witness :
    svcPlayNote cexSvcSt 2 4 0 0 0 15 = (cexSvcSt, []) ∧
    svcStopNote cexSvcSt none = (cexSvcSt, []) ∧
    procPlayNote freshProc cexPayload = (freshProc, []) ∧
    procStopNote (runMessages freshProc []) = (runMessages freshProc [], []) :=
  ⟨uninit_commands_noop.1 cexSvcSt 2 4 0 0 0 15 (Or.inl rfl),
   uninit_commands_noop.2.1 cexSvcSt none (Or.inl rfl),
   uninit_commands_noop.2.2.1 freshProc cexPayload rfl,
   uninit_commands_noop.2.2.2 [] rfl⟩

/-- The backward `for` loop of `getVolumeForPreview` finds exactly the
nearest present-and-positive volume among rows `i-1, …, 0`. -/
lemma lookBackVolume_eq (ch : PatternChannel) : ∀ i : ℕ,
    lookBackVolume ch i =
      (List.range i).reverse.findSome?
        (fun j => (ch.rows.get? j).bind
          (fun r => r.volume.bind (fun v => if 0 < v then some v else none))) := by
  intro i
  induction i with
  | zero => simp [lookBackVolume]
  | succ n ih =>
      rw [List.range_succ, List.reverse_append]
      simp only [List.reverse_cons, List.reverse_nil, List.nil_append,
        List.singleton_append, List.findSome?_cons]
      rw [lookBackVolume]
      cases hr : ch.rows.get? n with
      | none => simpa using ih
      | some r =>
          cases hv : r.volume with
          | none => simpa [hv] using ih
          | some v =>
              by_cases hpos : 0 < v
              · simp [hv, hpos]
              · simpa [hv, hpos] using ih

/-- The backward `for` loop of `getInstrumentForPreview` finds exactly
the nearest present-and-positive instrument among rows `i-1, …, 0`. -/
lemma lookBackInstrument_eq (ch : PatternChannel) : ∀ i : ℕ,
    lookBackInstrument ch i =
      (List.range i).reverse.findSome?
        (fun j => (ch.rows.get? j).bind
          (fun r => r.instrument.bind (fun v => if 0 < v then some v else none))) := by
  intro i
  induction i with
  | zero => simp [lookBackInstrument]
  | succ n ih =>
      rw [List.range_succ, List.reverse_append]
      simp only [List.reverse_cons, List.reverse_nil, List.nil_append,
        List.singleton_append, List.findSome?_cons]
      rw [lookBackInstrument]
      cases hr : ch.rows.get? n with
      | none => simpa using ih
      | some r =>
          cases hv : r.instrument with
          | none => simpa [hv] using ih
          | some v =>
              by_cases hpos : 0 < v
              · simp [hv, hpos]
              · simpa [hv, hpos] using ih

/-- C8 (amended): for every pattern, row index and valid channel index,
`getVolumeForPreview` returns the volume of the nearest row at or
before that index whose volume field is present AND positive,
defaulting to 15 when no such row exists; analogously,
`getInstrumentForPreview` returns the nearest present-and-positive
instrument, defaulting to 0.  (A present value of 0 — and any negative
value — is skipped by the scan, unlike the claim's reading: see the
counterexample.) -/
theorem preview_inherit_positive (pattern : Pattern) (rowIndex : ℕ) (channelIndex : ℤ)
    (h0 : 0 ≤ channelIndex) (h1 : channelIndex < (pattern.channels.length : ℤ)) :
    getVolumeForPreview pattern rowIndex channelIndex =
      (nearestPositiveVolume
        (pattern.channels.getD channelIndex.toNat ⟨[]⟩) rowIndex).getD 15 ∧
    getInstrumentForPreview pattern rowIndex channelIndex =
      (nearestPositiveInstrument
        (pattern.channels.getD channelIndex.toNat ⟨[]⟩) rowIndex).getD 0 := by
  have hguard : ¬ (channelIndex < 0 ∨ (pattern.channels.length : ℤ) ≤ channelIndex) := by
    omega
  constructor
  · simp only [getVolumeForPreview, hguard, if_false]
    rw [nearestPositiveVolume, List.range_succ, List.reverse_append]
    simp only [List.reverse_cons, List.reverse_nil, List.nil_append,
      List.singleton_append, List.findSome?_cons]
    rw [← lookBackVolume_eq]
    cases hr : (pattern.channels.getD channelIndex.toNat ⟨[]⟩).rows.get? rowIndex with
    | none => simp
    | some r =>
        cases hv : r.volume with
        | none => simp [hv]
        | some v =>
            by_cases hpos : 0 < v
            · simp [hv, hpos]
            · simp [hv, hpos]
  · simp only [getInstrumentForPreview, hguard, if_false]
    rw [nearestPositiveInstrument, List.range_succ, List.reverse_append]
    simp only [List.reverse_cons, List.reverse_nil, List.nil_append,
      List.singleton_append, List.findSome?_cons]
    rw [← lookBackInstrument_eq]
    cases hr : (pattern.channels.getD channelIndex.toNat ⟨[]⟩).rows.get? rowIndex with
    | none => simp
    | some r =>
        cases hv : r.instrument with
        | none => simp [hv]
        | some v =>
            by_cases hpos : 0 < v
            · simp [hv, hpos]
            · simp [hv, hpos]

/-- Witness for C8 (amended): the theorem applied to the concrete
one-row pattern whose volume and instrument fields are present 0s. -/
theorem preview_inherit_positive_witness :
    getVolumeForPreview cexPattern 0 0 =
      (nearestPositiveVolume (cexPattern.channels.getD (0 : ℤ).toNat ⟨[]⟩) 0).getD 15 ∧
    getInstrumentForPreview cexPattern 0 0 =
      (nearestPositiveInstrument (cexPattern.channels.getD (0 : ℤ).toNat ⟨[]⟩) 0).getD 0 :=
  preview_inherit_positive cexPattern 0 0 (by decide) (by decide)

/-- Counterexample for C8 as stated: a present volume (or instrument)
value of 0 is NOT returned — the code skips non-positive present
values and falls through to the defaults.  On a one-row pattern whose
row has volume 0 and instrument 0, `getVolumeForPreview` returns 15
(claim says 0) and `getInstrumentForPreview` returns 0 only because
the default happens to be 0 while the claimed nearest present volume
is 0 ≠ 15. -/
theorem preview_inherit_claim_counterexample :
    ¬ ∀ (pattern : Pattern) (rowIndex : ℕ) (channelIndex : ℤ),
        0 ≤ channelIndex → channelIndex < (pattern.channels.length : ℤ) →
        (getVolumeForPreview pattern rowIndex channelIndex =
            (nearestPresentVolume
              (pattern.channels.getD channelIndex.toNat ⟨[]⟩) rowIndex).getD 15 ∧
          getInstrumentForPreview pattern rowIndex channelIndex =
            (nearestPresentInstrument
              (pattern.channels.getD channelIndex.toNat ⟨[]⟩) rowIndex).getD 0) := by
  intro h
  have hc := (h cexPattern 0 0 (by decide) (by decide)).1
  exact absurd hc (by decide)

end SomeTracker
